import Mathlib

/-!
# Verification of the `Scoped` linear allocator (`src/scoped.rs`)

Shallow embedding of the scoped bump allocator from `src/scoped.rs`.
Pointers are modelled as unbounded natural numbers (byte addresses); the
`Cell<*mut u8>` cursor becomes an explicit `Option Nat` field threaded
through each operation, where `none` stands for the null-pointer sentinel
("suspended — an active child scope owns allocation rights").  The
`allocator: &'parent A` field of the Rust struct is a borrow used only at
root construction/destruction time and carries no state of its own, so it
is omitted from the state record; root destruction is modelled by
`Scoped.dropReleases`, which reports the block a `drop` call would hand
back to the parent.
-/

/-- Modelled from the spec: `Block` — "a plain descriptor
`{ pointer, size, alignment }` identifying a contiguous byte range."
The struct itself lives in the crate's generic `lib.rs`, which is not
under `src/` (the `lib.rs` present there is the superseded legacy
variant); only its `new`/`ptr()`/`size()` surface is used by
`scoped.rs`. -/
structure Block where
  ptr : Nat
  size : Nat
  align : Nat
  deriving DecidableEq, Repr

/-- Modelled from the spec: `AllocatorError` — "tagged variant:
`OutOfMemory` | `AllocatorSpecific(message)`."  Its definition lives in
the crate's generic `lib.rs`, which is not under `src/`. -/
inductive AllocatorError where
  | OutOfMemory : AllocatorError
  | AllocatorSpecific : String → AllocatorError
  deriving DecidableEq, Repr

/-- Modelled from the spec: `round_up(cursor, align)` (§4.3 step 2).  The
helper `align_forward` called at `scoped.rs:88` lives in the crate's
generic `lib.rs`, which is not under `src/`; the legacy variant under
`src/lib.rs:89` computes it inline as `(p + align - 1) & !(align - 1)`,
which for a power-of-two `align` equals rounding up to the next multiple
of `align`, the formula used here. -/
def align_forward (p align : Nat) : Nat :=
  ((p + align - 1) / align) * align

/-- The scoped linear allocator state (`scoped.rs:11-17`).  `current` is
the bump cursor: `none` models the null sentinel set while a child scope
is active.  `end_` is the Rust field `end` (a Lean keyword). -/
structure Scoped where
  current : Option Nat
  end_ : Nat
  root : Bool
  start : Nat
  deriving DecidableEq, Repr

namespace Scoped

/-- `Scoped::new_from` (`scoped.rs:28-40`), given the block `(ptr, size)`
that the parent allocator returned for the request: the fresh root covers
`[ptr, ptr + size)` with the cursor at the start. -/
def new_from (ptr size : Nat) : Scoped :=
  { current := some ptr, end_ := ptr + size, root := true, start := ptr }

/-- `Scoped::is_scoped` (`scoped.rs:74-76`): the cursor is the null
sentinel. -/
def is_scoped (s : Scoped) : Bool :=
  s.current.isNone

/-- The message built at `scoped.rs:82-84`. -/
def scopedMsg : String :=
  "Called allocate on already scoped allocator."

/-- `Scoped::allocate_raw` (`scoped.rs:80-97`): fail if suspended; align
the cursor forward, fail with `OutOfMemory` if the block would overrun
`end`, otherwise advance the cursor and hand out the block.  Returns the
result together with the post-call state. -/
def allocate_raw (s : Scoped) (size align : Nat) :
    Except AllocatorError Block × Scoped :=
  match s.current with
  | none => (Except.error (AllocatorError.AllocatorSpecific scopedMsg), s)
  | some current_ptr =>
      let aligned_ptr := align_forward current_ptr align
      let end_ptr := aligned_ptr + size
      if end_ptr > s.end_ then
        (Except.error AllocatorError.OutOfMemory, s)
      else
        (Except.ok ⟨aligned_ptr, size, align⟩, { s with current := some end_ptr })

/-- `Scoped::deallocate_raw` (`scoped.rs:100-107`): a no-op unless the
allocator is not suspended and the block is the trailing allocation
(`blk.ptr + blk.size == current`), in which case the cursor retreats to
`blk.ptr`. -/
def deallocate_raw (s : Scoped) (blk : Block) : Scoped :=
  match s.current with
  | none => s
  | some current_ptr =>
      if blk.ptr + blk.size = current_ptr then
        { s with current := some blk.ptr }
      else
        s

/-- `BlockOwner::owns_block` for `Scoped` (`scoped.rs:111-115`):
`start <= blk.ptr && blk.ptr <= end`. -/
def owns_block (s : Scoped) (blk : Block) : Bool :=
  decide (blk.ptr ≥ s.start) && decide (blk.ptr ≤ s.end_)

/-- The transient child built inside `Scoped::scope` (`scoped.rs:55-61`):
it clones the parent's cursor, shares `end`, is not a root, and — note —
its `start` is `old`, the parent's cursor snapshot, not the parent's
`start`. -/
def scopeChild (s : Scoped) : Scoped :=
  { current := s.current, end_ := s.end_, root := false,
    start := s.current.getD 0 }

/-- The parent as it stands while the closure runs (`scoped.rs:65`): the
cursor is set to the null sentinel. -/
def scopeSuspended (s : Scoped) : Scoped :=
  { s with current := none }

/-- `Scoped::scope` (`scoped.rs:46-71`): fail if already scoped;
otherwise snapshot `old := current`, build the child, run `f` on it with
the parent suspended, then restore the parent's cursor to `old` and
discard the child (`mem::forget`, so its `drop` never runs).  The closure
is modelled as a function from the child state to a result paired with
the child's final state (which `scope` discards). -/
def scope {U : Type} (s : Scoped) (f : Scoped → U × Scoped) :
    Except Unit U × Scoped :=
  if s.is_scoped then
    (Except.error (), s)
  else
    let old := s.current
    let u := (f (scopeChild s)).1
    (Except.ok u, { s with current := old })

/-- `Drop for Scoped` (`scoped.rs:118-133`): the block handed back to the
parent allocator, if any — only a root with a non-empty extent frees, and
it frees the whole extent at `align_of::<usize>()` (8 on the 64-bit
targets this crate builds for). -/
def dropReleases (s : Scoped) : Option Block :=
  let size := s.end_ - s.start
  if s.root = true ∧ 0 < size then
    some ⟨s.start, size, 8⟩
  else
    none

/-- `Scoped::scope` when the closure may unwind.  A panicking closure is
modelled by `f` returning `none`: control leaves `scope` by unwinding, so
the write `self.current.set(old)` at `scoped.rs:67` and the
`mem::forget(alloc)` at `scoped.rs:69` are both skipped — the parent's
cursor stays null and the local child *is* dropped.  The third component
reports the block that the child's `drop` releases during unwinding.  On
a normal return this agrees with `scope`. -/
def scopeUnwind {U : Type} (s : Scoped) (f : Scoped → Option U × Scoped) :
    Option (Except Unit U) × Scoped × Option Block :=
  if s.is_scoped then
    (some (Except.error ()), s, none)
  else
    let old := s.current
    match f (scopeChild s) with
    | (some u, _) => (some (Except.ok u), { s with current := old }, none)
    | (none, childFinal) =>
        (none, { s with current := none }, dropReleases childFinal)

end Scoped

/-! ## Operation sequences (for the state-invariant claims) -/

/-- One abstract client operation against a `Scoped` allocator: a raw
allocation request, a raw deallocation with an arbitrary block, or a
`scope` call with an arbitrary closure. -/
inductive AllocOp where
  | alloc (size align : Nat)
  | dealloc (blk : Block)
  | scopeCall (f : Scoped → Unit × Scoped)

/-- Run one operation, keeping only the state. -/
def execOp (s : Scoped) : AllocOp → Scoped
  | AllocOp.alloc size align => (s.allocate_raw size align).2
  | AllocOp.dealloc blk => s.deallocate_raw blk
  | AllocOp.scopeCall f => (s.scope f).2

/-- Run a sequence of operations. -/
def execOps (s : Scoped) (ops : List AllocOp) : Scoped :=
  ops.foldl execOp s

/-- The extent invariant: whenever the allocator is not suspended,
`start ≤ current ≤ end`. -/
def ScopedInv (s : Scoped) : Prop :=
  ∀ c, s.current = some c → s.start ≤ c ∧ c ≤ s.end_

/-- Well-formedness of one operation relative to the fixed extent start:
allocation alignments are positive (powers of two in the Rust contract),
and deallocated blocks do not start below the extent. -/
def opWf (st : Nat) : AllocOp → Prop
  | AllocOp.alloc _ align => 0 < align
  | AllocOp.dealloc blk => st ≤ blk.ptr
  | AllocOp.scopeCall _ => True

/-- Run a list of raw allocation requests, collecting the returned blocks;
`none` as soon as one request fails. -/
def runAllocs (s : Scoped) : List (Nat × Nat) → Option (List Block × Scoped)
  | [] => some ([], s)
  | (size, align) :: rest =>
      match s.allocate_raw size align with
      | (Except.ok b, s') =>
          (runAllocs s' rest).map (fun p => (b :: p.1, p.2))
      | (Except.error _, _) => none

/-- Byte ranges `[a.ptr, a.ptr + a.size)` and `[b.ptr, b.ptr + b.size)`
do not overlap. -/
def Block.disjoint (a b : Block) : Prop :=
  a.ptr + a.size ≤ b.ptr ∨ b.ptr + b.size ≤ a.ptr

/-! ## Helper lemmas -/

theorem align_forward_mod (p align : Nat) :
    align_forward p align % align = 0 := by
  simp [align_forward, Nat.mul_mod_left]

theorem le_align_forward (p : Nat) {align : Nat} (h : 0 < align) :
    p ≤ align_forward p align := by
  have h2 : (p + align - 1) % align < align := Nat.mod_lt _ h
  have h4 := Nat.mod_add_div (p + align - 1) align
  unfold align_forward
  rw [Nat.mul_comm]
  omega

theorem align_forward_eq_of_dvd {p align : Nat} (h : 0 < align)
    (hd : p % align = 0) : align_forward p align = p := by
  obtain ⟨q, rfl⟩ : ∃ q, p = q * align :=
    ⟨p / align, (Nat.div_mul_cancel (Nat.dvd_of_mod_eq_zero hd)).symm⟩
  have hq : (q * align + align - 1) / align = q := by
    have h1 : q * align + align - 1 = (align - 1) + align * q := by
      have h2 := Nat.mul_comm q align
      omega
    rw [h1, Nat.add_mul_div_left _ _ h, Nat.div_eq_of_lt (by omega),
      Nat.zero_add]
  unfold align_forward
  rw [hq]

theorem align_forward_one (p : Nat) : align_forward p 1 = p := by
  simp [align_forward]

theorem two_pow_pos (k : Nat) : 0 < 2 ^ k :=
  Nat.pos_pow_of_pos k (by omega)

/-! ## Claim theorems -/

/-- C3: if a `Scoped` instance is suspended (its cursor is the null
sentinel), `allocate_raw` fails with `AllocatorError::AllocatorSpecific`
leaving the state unchanged, and `scope` returns `Err(())` with the state
unchanged, uniformly in the closure `f` — so `f` is never invoked and a
second live scope over the same extent can never be created. -/
theorem suspension_enforcement (U : Type) (s : Scoped) (h : s.is_scoped = true)
    (size align : Nat) (f : Scoped → U × Scoped) :
    s.allocate_raw size align =
      (Except.error (AllocatorError.AllocatorSpecific Scoped.scopedMsg), s) ∧
    s.scope f = (Except.error (), s) := by
  have hc : s.current = none := Option.isNone_iff_eq_none.mp h
  constructor
  · simp [Scoped.allocate_raw, hc]
  · simp [Scoped.scope, h]

/-- Witness for C3 at a concrete suspended allocator. -/
theorem suspension_enforcement_witness :
    (Scoped.mk none 64 true 0).allocate_raw 4 4 =
      (Except.error (AllocatorError.AllocatorSpecific Scoped.scopedMsg),
        Scoped.mk none 64 true 0) ∧
    (Scoped.mk none 64 true 0).scope (fun c => (0, c)) =
      (Except.error (), Scoped.mk none 64 true 0) :=
  suspension_enforcement Nat (Scoped.mk none 64 true 0) rfl 4 4 (fun c => (0, c))

/-- C4: on a non-suspended instance, a request whose aligned end
`round_up(cursor, align) + size` overruns `end` fails with `OutOfMemory`
and the returned state is exactly the prior state: cursor, start and end
all unchanged. -/
theorem allocate_raw_oom (s : Scoped) (c size align : Nat)
    (h : s.current = some c)
    (hover : s.end_ < align_forward c align + size) :
    s.allocate_raw size align = (Except.error AllocatorError.OutOfMemory, s) := by
  simp only [Scoped.allocate_raw, h]
  rw [if_pos (by omega)]

/-- Witness for C4: a 100-byte request on a fresh 64-byte extent. -/
theorem allocate_raw_oom_witness :
    (Scoped.new_from 0 64).allocate_raw 100 1 =
      (Except.error AllocatorError.OutOfMemory, Scoped.new_from 0 64) :=
  allocate_raw_oom (Scoped.new_from 0 64) 0 100 1 rfl (by decide)

/-- C5: on a non-suspended instance, a request with a power-of-two
alignment that fits returns `Ok(Block(aligned, size, align))` with
`aligned = round_up(cursor, align)` a multiple of `align` and at least
the old cursor, and the cursor advances to `aligned + size`. -/
theorem allocate_raw_success (s : Scoped) (c size align k : Nat)
    (h : s.current = some c) (hal : align = 2 ^ k)
    (hfit : align_forward c align + size ≤ s.end_) :
    s.allocate_raw size align =
      (Except.ok (Block.mk (align_forward c align) size align),
        { s with current := some (align_forward c align + size) }) ∧
    align_forward c align % align = 0 ∧
    c ≤ align_forward c align := by
  have hpos : 0 < align := hal ▸ two_pow_pos k
  refine ⟨?_, align_forward_mod c align, le_align_forward c hpos⟩
  simp only [Scoped.allocate_raw, h]
  rw [if_neg (by omega)]

/-- Witness for C5: a 5-byte, align-4 request on a fresh 64-byte extent. -/
theorem allocate_raw_success_witness :
    (Scoped.new_from 0 64).allocate_raw 5 4 =
      (Except.ok (Block.mk 0 5 4), Scoped.mk (some 5) 64 true 0) ∧
    (0 : Nat) % 4 = 0 ∧ (0 : Nat) ≤ 0 :=
  allocate_raw_success (Scoped.new_from 0 64) 0 5 4 2 rfl rfl (by decide)

/-- C6: `deallocate_raw` is a no-op unless the instance is not suspended
and the block is the trailing allocation (`blk.ptr + blk.size` equals the
cursor), in which case the cursor retreats to `blk.ptr`; freeing a
non-trailing block changes nothing. -/
theorem deallocate_raw_spec (s : Scoped) (blk : Block) :
    (s.is_scoped = true → s.deallocate_raw blk = s) ∧
    (∀ c, s.current = some c → blk.ptr + blk.size ≠ c →
      s.deallocate_raw blk = s) ∧
    (∀ c, s.current = some c → blk.ptr + blk.size = c →
      s.deallocate_raw blk = { s with current := some blk.ptr }) := by
  refine ⟨fun h => ?_, fun c hc hne => ?_, fun c hc heq => ?_⟩
  · have hc : s.current = none := Option.isNone_iff_eq_none.mp h
    simp [Scoped.deallocate_raw, hc]
  · simp [Scoped.deallocate_raw, hc, hne]
  · simp [Scoped.deallocate_raw, hc, heq]

/-- Witness for C6: retreat on the trailing block, no-op on an interior
block. -/
theorem deallocate_raw_spec_witness :
    (Scoped.mk (some 8) 64 true 0).deallocate_raw (Block.mk 4 4 1) =
      Scoped.mk (some 4) 64 true 0 ∧
    (Scoped.mk (some 8) 64 true 0).deallocate_raw (Block.mk 0 4 1) =
      Scoped.mk (some 8) 64 true 0 :=
  ⟨(deallocate_raw_spec (Scoped.mk (some 8) 64 true 0) (Block.mk 4 4 1)).2.2
      8 rfl rfl,
    (deallocate_raw_spec (Scoped.mk (some 8) 64 true 0) (Block.mk 0 4 1)).2.1
      8 rfl (by decide)⟩

/-- C7: a `scope` call on a non-suspended instance returns `Ok` of the
closure's value and leaves the parent exactly as it was — the cursor is
restored to its pre-scope snapshot no matter what the closure did through
the child, which starts as a fresh bump allocator over `[saved, end)`;
in particular, on a fresh 64-byte extent a subsequent 64-byte align-1
allocation on the parent succeeds after the scope returns. -/
theorem scope_reclaims (U : Type) (s : Scoped) (c : Nat)
    (h : s.current = some c) (f : Scoped → U × Scoped) :
    (s.scope f).2 = s ∧
    (s.scope f).1 = Except.ok (f s.scopeChild).1 ∧
    s.scopeChild = Scoped.mk (some c) s.end_ false c ∧
    (s.start = c → s.end_ = c + 64 →
      ((s.scope f).2.allocate_raw 64 1).1 = Except.ok (Block.mk c 64 1)) := by
  have hns : s.is_scoped = false := by
    simp [Scoped.is_scoped, h]
  have h2 : (s.scope f).2 = s := by
    simp only [Scoped.scope, hns, Bool.false_eq_true, if_false]
  refine ⟨h2, ?_, ?_, ?_⟩
  · simp only [Scoped.scope, hns, Bool.false_eq_true, if_false]
  · simp [Scoped.scopeChild, h]
  · intro _ he
    rw [h2]
    simp only [Scoped.allocate_raw, h, align_forward_one]
    rw [if_neg (by omega)]

/-- Witness for C7: three allocations inside a scope over a fresh
64-byte extent, then a full-extent allocation after the scope returns. -/
theorem scope_reclaims_witness :
    ((Scoped.new_from 0 64).scope (fun inner =>
        ((), execOps inner
          [AllocOp.alloc 8 1, AllocOp.alloc 16 1, AllocOp.alloc 32 1]))).2 =
      Scoped.new_from 0 64 ∧
    (((Scoped.new_from 0 64).scope (fun inner =>
        ((), execOps inner
          [AllocOp.alloc 8 1, AllocOp.alloc 16 1, AllocOp.alloc 32 1]))).2.allocate_raw
        64 1).1 = Except.ok (Block.mk 0 64 1) := by
  have h := scope_reclaims Unit (Scoped.new_from 0 64) 0 rfl
    (fun inner => ((), execOps inner
      [AllocOp.alloc 8 1, AllocOp.alloc 16 1, AllocOp.alloc 32 1]))
  exact ⟨h.1, h.2.2.2 rfl rfl⟩

/-- C1 counterexample: on a fresh 64-byte root, a closure that unwinds
out of `scope` leaves the parent's cursor at the null sentinel — it is
not restored to the pre-scope snapshot `some 0` (`scoped.rs:66-67` has no
unwind guard around `f`, so `self.current.set(old)` is skipped). -/
theorem scope_unwind_cex :
    ((Scoped.new_from 0 64).scopeUnwind
        (fun cc => ((none : Option Nat), cc))).2.1.current = none ∧
    (Scoped.new_from 0 64).current = some 0 ∧
    (none : Option Nat) ≠ some 0 :=
  ⟨rfl, rfl, by decide⟩

/-- C1 (amended): if the closure unwinds out of `scope`, the parent's
cursor is NOT restored — it stays at the null sentinel, so the parent is
left suspended and every later allocation on it fails without changing
state; no double-free or premature reclamation occurs: the child dropped
during unwinding is not a root and releases nothing, and the backing
extent is released exactly once, by the root's own `drop`. -/
theorem scope_unwind_safe (U : Type) (s : Scoped) (c : Nat)
    (h : s.current = some c) (f : Scoped → Option U × Scoped)
    (hf : (f s.scopeChild).1 = none)
    (hroot : (f s.scopeChild).2.root = false) :
    (s.scopeUnwind f).1 = none ∧
    (s.scopeUnwind f).2.1 = s.scopeSuspended ∧
    (s.scopeUnwind f).2.2 = none ∧
    s.scopeChild.root = false ∧
    (∀ size align,
      ((s.scopeUnwind f).2.1.allocate_raw size align).2 =
        (s.scopeUnwind f).2.1) ∧
    (s.root = true → s.start < s.end_ →
      s.dropReleases = some (Block.mk s.start (s.end_ - s.start) 8)) := by
  have hns : s.is_scoped = false := by
    simp [Scoped.is_scoped, h]
  have hsplit : f s.scopeChild = (none, (f s.scopeChild).2) := by
    rw [← hf]
  have hmain : s.scopeUnwind f =
      (none, s.scopeSuspended, (f s.scopeChild).2.dropReleases) := by
    rw [Scoped.scopeUnwind, if_neg (by simp [hns]), hsplit]
    rfl
  have hdrop : (f s.scopeChild).2.dropReleases = none := by
    rw [Scoped.dropReleases]
    rw [if_neg (by simp [hroot])]
  refine ⟨by rw [hmain], by rw [hmain], by rw [hmain, hdrop], ?_, ?_, ?_⟩
  · rfl
  · intro size align
    rw [hmain]
    rfl
  · intro hr hlt
    rw [Scoped.dropReleases, if_pos ⟨hr, by omega⟩]

/-- Witness for C1 (amended) at a fresh 64-byte root with a closure that
immediately unwinds. -/
theorem scope_unwind_safe_witness :
    ((Scoped.new_from 0 64).scopeUnwind
        (fun cc => ((none : Option Nat), cc))).1 = none ∧
    ((Scoped.new_from 0 64).scopeUnwind
        (fun cc => ((none : Option Nat), cc))).2.1 =
      (Scoped.new_from 0 64).scopeSuspended ∧
    ((Scoped.new_from 0 64).scopeUnwind
        (fun cc => ((none : Option Nat), cc))).2.2 = none ∧
    (Scoped.new_from 0 64).scopeChild.root = false ∧
    (∀ size align,
      (((Scoped.new_from 0 64).scopeUnwind
          (fun cc => ((none : Option Nat), cc))).2.1.allocate_raw
          size align).2 =
        ((Scoped.new_from 0 64).scopeUnwind
          (fun cc => ((none : Option Nat), cc))).2.1) ∧
    ((Scoped.new_from 0 64).root = true → (Scoped.new_from 0 64).start <
        (Scoped.new_from 0 64).end_ →
      (Scoped.new_from 0 64).dropReleases = some (Block.mk 0 64 8)) :=
  scope_unwind_safe Nat (Scoped.new_from 0 64) 0 rfl
    (fun cc => ((none : Option Nat), cc)) rfl rfl

/-- C2 counterexample, replaying the repository's own `owning` test
(`scoped.rs:181-192`): allocate a 4-byte block from a fresh 64-byte root,
then enter a scope; the child built at `scoped.rs:55-61` has
`start = old` (the cursor snapshot, 4), so it reports the pre-scope block
at address 0 as NOT owned, while the root reports it as owned — the claim
says the child must report it as owned. -/
theorem owns_block_child_cex :
    ((Scoped.new_from 0 64).allocate_raw 4 4).1 = Except.ok (Block.mk 0 4 4) ∧
    ((Scoped.new_from 0 64).allocate_raw 4 4).2.owns_block (Block.mk 0 4 4) =
      true ∧
    (((Scoped.new_from 0 64).allocate_raw 4 4).2.scopeChild).owns_block
      (Block.mk 0 4 4) = false :=
  ⟨rfl, rfl, rfl⟩

/-- C2 (amended): `owns_block` is the range test `start ≤ ptr ≤ end` over
the instance's own bounds; a root's `start` is the extent base, but a
scope child's `start` is the parent's cursor snapshot at scope entry
(`scoped.rs:60`), so the child owns exactly the tail `[saved, end]` and a
block allocated before scope entry at a lower address is not reported as
owned by the child. -/
theorem owns_block_spec (s : Scoped) (blk : Block) (c : Nat)
    (h : s.current = some c) :
    s.owns_block blk =
      (decide (s.start ≤ blk.ptr) && decide (blk.ptr ≤ s.end_)) ∧
    s.scopeChild.start = c ∧
    s.scopeChild.end_ = s.end_ ∧
    s.scopeChild.owns_block blk =
      (decide (c ≤ blk.ptr) && decide (blk.ptr ≤ s.end_)) := by
  refine ⟨rfl, ?_, rfl, ?_⟩
  · simp [Scoped.scopeChild, h]
  · simp [Scoped.owns_block, Scoped.scopeChild, h]

/-- Witness for C2 (amended) at a root with cursor 4 over `[0, 64]`. -/
theorem owns_block_spec_witness :
    (Scoped.mk (some 4) 64 true 0).owns_block (Block.mk 0 4 4) =
      (decide ((0:Nat) ≤ 0) && decide ((0:Nat) ≤ 64)) ∧
    (Scoped.mk (some 4) 64 true 0).scopeChild.start = 4 ∧
    (Scoped.mk (some 4) 64 true 0).scopeChild.end_ = 64 ∧
    (Scoped.mk (some 4) 64 true 0).scopeChild.owns_block (Block.mk 0 4 4) =
      (decide ((4:Nat) ≤ 0) && decide ((0:Nat) ≤ 64)) :=
  owns_block_spec (Scoped.mk (some 4) 64 true 0) (Block.mk 0 4 4) 4 rfl

/-- C8 counterexample: a zero-capacity allocator whose extent sits at
address 8 — a legal return address for the `align_of::<usize>()`-aligned
request `new_from` makes — rejects a zero-size align-16 request with
`OutOfMemory` instead of succeeding: `round_up(8, 16) = 16 > end = 8`. -/
theorem zero_capacity_cex :
    (Scoped.new_from 8 0).allocate_raw 0 16 =
      (Except.error AllocatorError.OutOfMemory, Scoped.new_from 8 0) :=
  rfl

/-- C8 (amended): for a non-suspended zero-capacity allocator (cursor =
end = c), every non-zero-size request fails with `OutOfMemory` leaving
the state unchanged; a zero-size power-of-two-align request succeeds —
returning the empty block at the cursor with the state unchanged — iff
the cursor is already a multiple of the alignment, and otherwise also
fails with `OutOfMemory`. -/
theorem zero_capacity_spec (s : Scoped) (c size align k : Nat)
    (h : s.current = some c) (hz : s.end_ = c) (hal : align = 2 ^ k) :
    (0 < size →
      s.allocate_raw size align =
        (Except.error AllocatorError.OutOfMemory, s)) ∧
    (c % align = 0 →
      s.allocate_raw 0 align = (Except.ok (Block.mk c 0 align), s)) ∧
    (c % align ≠ 0 →
      s.allocate_raw 0 align =
        (Except.error AllocatorError.OutOfMemory, s)) := by
  have hpos : 0 < align := hal ▸ two_pow_pos k
  have hle := le_align_forward c hpos
  have hstate : { s with current := some c } = s := by
    rw [← h]
  refine ⟨fun hsz => ?_, fun hd => ?_, fun hnd => ?_⟩
  · simp only [Scoped.allocate_raw, h]
    rw [if_pos (by omega)]
  · have ha : align_forward c align = c := align_forward_eq_of_dvd hpos hd
    simp only [Scoped.allocate_raw, h, ha]
    rw [if_neg (by omega), Nat.add_zero, hstate]
  · have hmod := align_forward_mod c align
    have hne : align_forward c align ≠ c := fun he => hnd (he ▸ hmod)
    simp only [Scoped.allocate_raw, h]
    rw [if_pos (by omega)]

/-- Witness for C8 (amended): a 3-byte and a misaligned zero-size request
on the zero-capacity extent at 8 both fail; a zero-size align-16 request
on the zero-capacity extent at 16 succeeds. -/
theorem zero_capacity_spec_witness :
    (Scoped.new_from 8 0).allocate_raw 3 16 =
      (Except.error AllocatorError.OutOfMemory, Scoped.new_from 8 0) ∧
    (Scoped.new_from 8 0).allocate_raw 0 16 =
      (Except.error AllocatorError.OutOfMemory, Scoped.new_from 8 0) ∧
    (Scoped.new_from 16 0).allocate_raw 0 16 =
      (Except.ok (Block.mk 16 0 16), Scoped.new_from 16 0) :=
  ⟨(zero_capacity_spec (Scoped.new_from 8 0) 8 3 16 4 rfl rfl rfl).1
      (by decide),
    (zero_capacity_spec (Scoped.new_from 8 0) 8 0 16 4 rfl rfl rfl).2.2
      (by decide),
    (zero_capacity_spec (Scoped.new_from 16 0) 16 0 16 4 rfl rfl rfl).2.1
      (by decide)⟩

/-- Helper for C9: one operation preserves the extent invariant and the
extent bounds, provided the operation is well-formed for this extent. -/
theorem execOp_inv (s : Scoped) (op : AllocOp) (hinv : ScopedInv s)
    (hwf : opWf s.start op) :
    ScopedInv (execOp s op) ∧ (execOp s op).start = s.start ∧
    (execOp s op).end_ = s.end_ := by
  cases op with
  | alloc size align =>
    have hal : 0 < align := hwf
    rcases hc : s.current with _ | c
    · have hs : execOp s (AllocOp.alloc size align) = s := by
        show (s.allocate_raw size align).2 = s
        rw [Scoped.allocate_raw, hc]
      rw [hs]
      exact ⟨hinv, rfl, rfl⟩
    · have hbound := hinv c hc
      by_cases hov : align_forward c align + size > s.end_
      · have hs : execOp s (AllocOp.alloc size align) = s := by
          show (s.allocate_raw size align).2 = s
          rw [Scoped.allocate_raw, hc]
          simp only [if_pos hov]
        rw [hs]
        exact ⟨hinv, rfl, rfl⟩
      · have hs : execOp s (AllocOp.alloc size align) =
            { s with current := some (align_forward c align + size) } := by
          show (s.allocate_raw size align).2 = _
          rw [Scoped.allocate_raw, hc]
          simp only [if_neg hov]
        rw [hs]
        refine ⟨?_, rfl, rfl⟩
        intro c' hc'
        have hc'' : align_forward c align + size = c' := by
          simpa using hc'
        have hle := le_align_forward c hal
        show s.start ≤ c' ∧ c' ≤ s.end_
        omega
  | dealloc blk =>
    have hwfp : s.start ≤ blk.ptr := hwf
    rcases hc : s.current with _ | c
    · have hs : execOp s (AllocOp.dealloc blk) = s := by
        show s.deallocate_raw blk = s
        rw [Scoped.deallocate_raw, hc]
      rw [hs]
      exact ⟨hinv, rfl, rfl⟩
    · have hbound := hinv c hc
      by_cases he : blk.ptr + blk.size = c
      · have hs : execOp s (AllocOp.dealloc blk) =
            { s with current := some blk.ptr } := by
          show s.deallocate_raw blk = _
          rw [Scoped.deallocate_raw, hc]
          simp only [if_pos he]
        rw [hs]
        refine ⟨?_, rfl, rfl⟩
        intro c' hc'
        have hc'' : blk.ptr = c' := by
          simpa using hc'
        show s.start ≤ c' ∧ c' ≤ s.end_
        omega
      · have hs : execOp s (AllocOp.dealloc blk) = s := by
          show s.deallocate_raw blk = s
          rw [Scoped.deallocate_raw, hc]
          simp only [if_neg he]
        rw [hs]
        exact ⟨hinv, rfl, rfl⟩
  | scopeCall f =>
    have hs : execOp s (AllocOp.scopeCall f) = s := by
      show (s.scope f).2 = s
      by_cases hsc : s.is_scoped = true
      · rw [Scoped.scope, if_pos hsc]
      · rw [Scoped.scope, if_neg hsc]
    rw [hs]
    exact ⟨hinv, rfl, rfl⟩

/-- Helper for C9: running any well-formed sequence preserves the extent
invariant and the extent bounds. -/
theorem execOps_inv (ops : List AllocOp) :
    ∀ s : Scoped, ScopedInv s → (∀ op ∈ ops, opWf s.start op) →
      ScopedInv (execOps s ops) ∧ (execOps s ops).start = s.start ∧
      (execOps s ops).end_ = s.end_ := by
  induction ops with
  | nil =>
    intro s h _
    exact ⟨h, rfl, rfl⟩
  | cons op rest ih =>
    intro s hinv hwf
    have hstep := execOp_inv s op hinv (hwf op (by simp))
    have hrest := ih (execOp s op) hstep.1 (by
      intro o ho
      rw [hstep.2.1]
      exact hwf o (by simp [ho]))
    show ScopedInv (execOps (execOp s op) rest) ∧ _ ∧ _
    exact ⟨hrest.1, hrest.2.1.trans hstep.2.1, hrest.2.2.trans hstep.2.2⟩

/-- C9 counterexample: from the valid state (start 8, cursor 8, end 16) —
which satisfies the invariant — the single `deallocate_raw` call with the
arbitrary block `(ptr 5, size 3)` matches the trailing-block test
(`5 + 3 = 8`) and drags the cursor to 5, below `start`: the invariant
`start ≤ current` is violated while the instance is not suspended. -/
theorem state_invariant_cex :
    ScopedInv (Scoped.mk (some 8) 16 true 8) ∧
    execOps (Scoped.mk (some 8) 16 true 8)
        [AllocOp.dealloc (Block.mk 5 3 1)] =
      Scoped.mk (some 5) 16 true 8 ∧
    ¬ ScopedInv (Scoped.mk (some 5) 16 true 8) := by
  refine ⟨?_, rfl, ?_⟩
  · intro c hc
    have hc8 : c = 8 := by simpa using hc.symm
    show (8 : Nat) ≤ c ∧ c ≤ 16
    omega
  · intro hinv
    have h5 : (8 : Nat) ≤ 5 ∧ (5 : Nat) ≤ 16 := hinv 5 rfl
    omega

/-- C9 (amended): `start ≤ current ≤ end` is preserved by every sequence
of `allocate_raw`, `deallocate_raw` and `scope` operations, provided the
deallocated blocks do not start below the extent (`start ≤ blk.ptr`) and
allocation alignments are positive (the power-of-two contract); blocks
entirely below `start` can otherwise drag the cursor out of the extent.
Moreover the cursor is the null sentinel exactly while a child scope is
live: entering a scope suspends the parent (`scopeSuspended`), and a
completed `scope` call on a non-suspended parent hands back exactly the
prior, non-suspended state. -/
theorem state_invariant (s : Scoped) (ops : List AllocOp)
    (hinv : ScopedInv s) (hwf : ∀ op ∈ ops, opWf s.start op) :
    ScopedInv (execOps s ops) ∧
    (execOps s ops).start = s.start ∧
    (execOps s ops).end_ = s.end_ ∧
    s.scopeSuspended.is_scoped = true ∧
    (∀ f : Scoped → Unit × Scoped, s.is_scoped = false →
      (s.scope f).2 = s) := by
  obtain ⟨h1, h2, h3⟩ := execOps_inv ops s hinv hwf
  refine ⟨h1, h2, h3, rfl, ?_⟩
  intro f hns
  rw [Scoped.scope, if_neg (by simp [hns])]

/-- Witness for C9 (amended): an allocation, a LIFO free of it, and a
scope call on the extent `[8, 16)`. -/
theorem state_invariant_witness :
    ScopedInv (execOps (Scoped.mk (some 8) 16 true 8)
      [AllocOp.alloc 4 1, AllocOp.dealloc (Block.mk 8 4 1),
        AllocOp.scopeCall (fun c => ((), c))]) ∧
    (execOps (Scoped.mk (some 8) 16 true 8)
      [AllocOp.alloc 4 1, AllocOp.dealloc (Block.mk 8 4 1),
        AllocOp.scopeCall (fun c => ((), c))]).start = 8 ∧
    (execOps (Scoped.mk (some 8) 16 true 8)
      [AllocOp.alloc 4 1, AllocOp.dealloc (Block.mk 8 4 1),
        AllocOp.scopeCall (fun c => ((), c))]).end_ = 16 ∧
    (Scoped.mk (some 8) 16 true 8).scopeSuspended.is_scoped = true ∧
    (∀ f : Scoped → Unit × Scoped,
      (Scoped.mk (some 8) 16 true 8).is_scoped = false →
      ((Scoped.mk (some 8) 16 true 8).scope f).2 =
        Scoped.mk (some 8) 16 true 8) :=
  state_invariant (Scoped.mk (some 8) 16 true 8)
    [AllocOp.alloc 4 1, AllocOp.dealloc (Block.mk 8 4 1),
      AllocOp.scopeCall (fun c => ((), c))]
    (by
      intro c hc
      have hc8 : c = 8 := by simpa using hc.symm
      show (8 : Nat) ≤ c ∧ c ≤ 16
      omega)
    (by
      intro op hop
      simp only [List.mem_cons, List.not_mem_nil, or_false] at hop
      rcases hop with rfl | rfl | rfl
      · exact Nat.one_pos
      · exact le_refl 8
      · exact trivial)

/-- Helper for C10: inversion of a successful `allocate_raw` call. -/
theorem allocate_raw_ok (s : Scoped) (size align c : Nat) (b : Block)
    (s1 : Scoped) (hc : s.current = some c)
    (hok : s.allocate_raw size align = (Except.ok b, s1)) :
    b = Block.mk (align_forward c align) size align ∧
    s1 = { s with current := some (align_forward c align + size) } ∧
    align_forward c align + size ≤ s.end_ := by
  simp only [Scoped.allocate_raw, hc] at hok
  by_cases hov : align_forward c align + size > s.end_
  · rw [if_pos hov] at hok
    simp at hok
  · rw [if_neg hov] at hok
    simp only [Prod.mk.injEq, Except.ok.injEq] at hok
    obtain ⟨hb, hs1⟩ := hok
    exact ⟨hb.symm, hs1.symm, by omega⟩

/-- Helper for C10: a fully successful run of allocation requests with
positive alignments yields blocks at or above the starting cursor, within
the extent, below the final cursor, and in non-overlapping ascending
order. -/
theorem runAllocs_spec (reqs : List (Nat × Nat)) :
    ∀ (s : Scoped) (c : Nat) (bs : List Block) (s' : Scoped),
      s.current = some c →
      (∀ r ∈ reqs, 0 < r.2) →
      runAllocs s reqs = some (bs, s') →
      ∃ c', s'.current = some c' ∧ c ≤ c' ∧ s'.end_ = s.end_ ∧
        (∀ b ∈ bs, c ≤ b.ptr ∧ b.ptr + b.size ≤ s.end_ ∧
          b.ptr + b.size ≤ c') ∧
        List.Pairwise (fun a b => a.ptr + a.size ≤ b.ptr) bs := by
  induction reqs with
  | nil =>
    intro s c bs s' hc _ hrun
    simp only [runAllocs, Option.some.injEq, Prod.mk.injEq] at hrun
    obtain ⟨hbs, hs⟩ := hrun
    subst hbs
    subst hs
    exact ⟨c, hc, le_refl c, rfl, by simp, by simp⟩
  | cons r rest ih =>
    intro s c bs s' hc hal hrun
    obtain ⟨size, align⟩ := r
    have halpos : 0 < align := hal (size, align) (by simp)
    simp only [runAllocs] at hrun
    rcases hok : s.allocate_raw size align with ⟨res, s1⟩
    rw [hok] at hrun
    cases res with
    | error e => exact Option.noConfusion hrun
    | ok b =>
      replace hrun :
          (runAllocs s1 rest).map (fun p => (b :: p.1, p.2)) =
            some (bs, s') := hrun
      rcases hr : runAllocs s1 rest with _ | p
      · rw [hr] at hrun
        simp at hrun
      · obtain ⟨bs', s''⟩ := p
        rw [hr] at hrun
        replace hrun : some (b :: bs', s'') = some (bs, s') := hrun
        obtain ⟨hbs, hs'⟩ : b :: bs' = bs ∧ s'' = s' := by
          have hpair := Option.some.inj hrun
          exact ⟨congrArg Prod.fst hpair, congrArg Prod.snd hpair⟩
        subst hs'
        obtain ⟨hb, hs1, hfit⟩ := allocate_raw_ok s size align c b s1 hc hok
        have hs1c : s1.current = some (align_forward c align + size) := by
          rw [hs1]
        have hs1e : s1.end_ = s.end_ := by
          rw [hs1]
        have hle := le_align_forward c halpos
        obtain ⟨c', hc', hcle, he', hall, hpw⟩ :=
          ih s1 (align_forward c align + size) bs' s'' hs1c
            (fun r hr' => hal r (by simp [hr'])) hr
        have hbp : b.ptr = align_forward c align := by
          rw [hb]
        have hbsz : b.size = size := by
          rw [hb]
        refine ⟨c', hc', by omega, by rw [he', hs1e], ?_, ?_⟩
        · intro b' hb'
          rw [← hbs] at hb'
          rcases List.mem_cons.mp hb' with rfl | hmem
          · exact ⟨by omega, by omega, by omega⟩
          · obtain ⟨h1, h2, h3⟩ := hall b' hmem
            exact ⟨by omega, by rw [← hs1e]; exact h2, h3⟩
        · rw [← hbs]
          refine List.Pairwise.cons ?_ hpw
          intro b' hb'
          have h1 := (hall b' hb').1
          show b.ptr + b.size ≤ b'.ptr
          omega

/-- C10 counterexample: two zero-size align-1 requests on a fresh
64-byte extent both succeed and both return the block at address 0 —
the addresses are equal, not strictly increasing in allocation order
(the claim quantifies over all sequences of successful calls, and
zero-size requests are legal and succeed). -/
theorem blocks_increasing_cex :
    runAllocs (Scoped.new_from 0 64) [(0, 1), (0, 1)] =
      some ([Block.mk 0 0 1, Block.mk 0 0 1], Scoped.new_from 0 64) ∧
    ¬ List.Pairwise (fun a b => a.ptr < b.ptr)
        [Block.mk 0 0 1, Block.mk 0 0 1] := by
  refine ⟨rfl, ?_⟩
  intro hpw
  have h := List.rel_of_pairwise_cons hpw (List.mem_cons_self _ _)
  simp at h

/-- C10 (amended): for every sequence of successful `allocate_raw` calls
with positive (power-of-two contract) alignments on one non-suspended
instance, the returned blocks' byte ranges are pairwise disjoint and lie
within `[start, end]`, their addresses are non-decreasing (each block
starts at or after the end of the previous one), and they are strictly
increasing as soon as all sizes are non-zero; zero-size blocks can
repeat an address. -/
theorem blocks_disjoint (s : Scoped) (c : Nat) (reqs : List (Nat × Nat))
    (bs : List Block) (s' : Scoped)
    (hc : s.current = some c) (hstart : s.start ≤ c)
    (hal : ∀ r ∈ reqs, 0 < r.2)
    (hrun : runAllocs s reqs = some (bs, s')) :
    (∀ b ∈ bs, s.start ≤ b.ptr ∧ b.ptr + b.size ≤ s.end_) ∧
    List.Pairwise Block.disjoint bs ∧
    List.Pairwise (fun a b => a.ptr + a.size ≤ b.ptr) bs ∧
    ((∀ b ∈ bs, 0 < b.size) →
      List.Pairwise (fun a b => a.ptr < b.ptr) bs) := by
  obtain ⟨c', _, _, _, hall, hpw⟩ :=
    runAllocs_spec reqs s c bs s' hc hal hrun
  refine ⟨?_, ?_, hpw, ?_⟩
  · intro b hb
    obtain ⟨h1, h2, _⟩ := hall b hb
    exact ⟨le_trans hstart h1, h2⟩
  · exact hpw.imp (fun h => Or.inl h)
  · intro hsz
    refine List.Pairwise.imp_of_mem ?_ hpw
    intro a b ha _ hle
    have := hsz a ha
    omega

/-- Witness for C10 (amended): three successful requests
(4 bytes align 4, 2 bytes align 1, 8 bytes align 8) on a fresh 64-byte
extent. -/
theorem blocks_disjoint_witness :
    (∀ b ∈ [Block.mk 0 4 4, Block.mk 4 2 1, Block.mk 8 8 8],
      (Scoped.new_from 0 64).start ≤ b.ptr ∧
      b.ptr + b.size ≤ (Scoped.new_from 0 64).end_) ∧
    List.Pairwise Block.disjoint
      [Block.mk 0 4 4, Block.mk 4 2 1, Block.mk 8 8 8] ∧
    List.Pairwise (fun a b => a.ptr + a.size ≤ b.ptr)
      [Block.mk 0 4 4, Block.mk 4 2 1, Block.mk 8 8 8] ∧
    ((∀ b ∈ [Block.mk 0 4 4, Block.mk 4 2 1, Block.mk 8 8 8], 0 < b.size) →
      List.Pairwise (fun a b => a.ptr < b.ptr)
        [Block.mk 0 4 4, Block.mk 4 2 1, Block.mk 8 8 8]) :=
  blocks_disjoint (Scoped.new_from 0 64) 0 [(4, 4), (2, 1), (8, 8)]
    [Block.mk 0 4 4, Block.mk 4 2 1, Block.mk 8 8 8]
    (Scoped.mk (some 16) 64 true 0) rfl (le_refl 0)
    (by
      intro r hr
      simp only [List.mem_cons, List.not_mem_nil, or_false] at hr
      rcases hr with rfl | rfl | rfl
      · exact by omega
      · exact by omega
      · exact by omega)
    rfl
